import Mathlib

/-!
Verification development for the halo-analysis pipeline engine
(yt_astro_analysis/halo_analysis/analysis_pipeline.py).

The Python source is shallowly embedded below.  Python dictionaries with
insertion order are modelled as association lists with an in-place update
(dictInsert); Python strings are Lean String values, except in the catalog
writer where name manipulation is done on List Char (the character sequence
of the string).  Fallible Python code (raising) is modelled with Except.

The physical-unit system is an external collaborator of the engine; the
engine only relies on the contract "a value either carries unit metadata or
not, and convert_to_base rewrites a unit-carrying value to its base-unit
representation in place".  QVal realises that contract concretely: a value
with a scale factor to base units, plus a counter of how many conversions
have been applied to it (the counter makes >>exactly once<< provable).
-/

namespace AnalysisPipeline

/-- A stored quantity value.  `hasUnits` models the Python
`hasattr(quantity, "units")` test; `factor` is the scale from the current
unit to the base unit (1 once in base units); `conversions` counts how many
times `convert_to_base` has been applied to this value. -/
structure QVal where
  val : Int
  hasUnits : Bool
  factor : Int
  conversions : Nat
  deriving DecidableEq, Repr, Inhabited

/-- Embedding of `quantity.convert_to_base()` under the unit-system
contract: rewrite the value to base units in place. -/
def convertToBase (q : QVal) : QVal :=
  { val := q.val * q.factor, hasUnits := q.hasUnits, factor := 1,
    conversions := q.conversions + 1 }

/-- A value with no unit metadata (plain number). -/
def qRaw (v : Int) : QVal :=
  { val := v, hasUnits := false, factor := 1, conversions := 0 }

/-- A value carrying unit metadata with the given scale to base units. -/
def qUnit (v f : Int) : QVal :=
  { val := v, hasUnits := true, factor := f, conversions := 0 }

/-- Embedding of the `AnalysisTarget` working record: `index` is the
position inside the chunk, `obj` the reference to the underlying object
(`_run` passes the index itself for both), `quantities` the per-target
dictionary built up by the actions. -/
structure Target where
  index : Nat
  obj : Nat
  quantities : List (String × QVal)
  deriving DecidableEq, Repr

/-- `AnalysisTarget.__init__` followed by the two assignments in
`_process_target`: fresh record with an empty quantities dictionary. -/
def initTarget (tgt index : Nat) : Target :=
  { index := index, obj := tgt, quantities := [] }

/-- Python dictionary assignment `d[k] = v` on an association list:
overwrite in place when the key exists, append otherwise. -/
def dictInsert (k : String) (v : QVal) : List (String × QVal) → List (String × QVal)
  | [] => [(k, v)]
  | (k2, v2) :: rest =>
      if k2 = k then (k, v) :: rest else (k2, v2) :: dictInsert k v rest

/-- Python dictionary read `d[k]` (total here; in the engine it is only
applied to keys that are present). -/
def dictGet (k : String) (d : List (String × QVal)) : QVal :=
  (List.lookup k d).getD default

/-- The `quantity` payload of a quantity action when it is not callable: a
direct field reference, either a bare key (`from_data_source` with no
`field_type`) or a `(field_type, key)` pair. -/
inductive FieldRef where
  | plain (key : String)
  | typed (ftype : String) (key : String)
  deriving DecidableEq, Repr

/-- The source of a quantity action: the callable case
(`callable(quantity)` true in `_process_target`) or the field-reference
case read from the data source at the target index. -/
inductive QSource where
  | fn (f : Target → QVal)
  | fieldRef (r : FieldRef)

/-- One entry of `self.actions`.  The source stores `(tag, payload)` pairs
with a string tag dispatched in `_process_target`; the three recognised
tags become constructors, and `unknown` stands for an entry whose tag is
none of the three (the final `else` branch of the dispatch). -/
inductive PAction where
  | callback (f : Target → Target)
  | filter (f : Target → Bool)
  | quantity (key : String) (src : QSource)
  | unknown (tag : String)

/-- Whether an action carries one of the three recognised kind tags. -/
def isKnown : PAction → Bool
  | .unknown _ => false
  | _ => true

/-- Whether an action is not a filter action. -/
def isNotFilter : PAction → Bool
  | .filter _ => false
  | _ => true

/-- Whether an action is not a quantity action. -/
def isNotQuantity : PAction → Bool
  | .quantity _ _ => false
  | _ => true

/-- The data source of one chunk, restricted to what `_process_target`
uses: indexed access `data_source[fieldref][index]` to materialised field
columns. -/
def DataSource : Type := FieldRef → Nat → QVal

/-- The error message of the `RuntimeError` raised on an unrecognised
action kind. -/
def actionErrMsg : String := "Action must be a callback, filter, or quantity."

/-- The `for action_type, action in self.actions` loop of
`_process_target`: thread the target through the actions; a filter
returning false breaks out with survived = false; an unrecognised kind
raises.  Returns the final target together with the survived flag
(`target_filter`). -/
def runActions (ds : DataSource) (index : Nat) :
    List PAction → Target → Except String (Target × Bool)
  | [], t => .ok (t, true)
  | a :: rest, t =>
      match a with
      | .callback f => runActions ds index rest (f t)
      | .filter f =>
          if f t then runActions ds index rest t else .ok (t, false)
      | .quantity key src =>
          let v :=
            match src with
            | .fn f => f t
            | .fieldRef r => ds r index
          runActions ds index rest { t with quantities := dictInsert key v t.quantities }
      | .unknown _ => .error actionErrMsg

/-- The unit-normalisation loop run on a surviving target: every value
with unit metadata is converted to base units in place, the others are
left untouched. -/
def normalizeQuantities (qs : List (String × QVal)) : List (String × QVal) :=
  qs.map fun p => (p.1, if p.2.hasUnits then convertToBase p.2 else p.2)

/-- Embedding of `_process_target` for one object (the catalog path):
build the fresh target, run the action list, and if the target survived
all filters return its normalised quantities dictionary (to be appended to
the local catalog); a filtered-out target contributes nothing. -/
def processTarget (acts : List PAction) (ds : DataSource) (i : Nat) :
    Except String (Option (List (String × QVal))) :=
  match runActions ds i acts (initTarget i i) with
  | .error e => .error e
  | .ok (t, true) => .ok (some (normalizeQuantities t.quantities))
  | .ok (_, false) => .ok none

/-- Whether object `i` survives all filters (its quantities get appended
to the catalog). -/
def survives (acts : List PAction) (ds : DataSource) (i : Nat) : Bool :=
  match processTarget acts ds i with
  | .ok (some _) => true
  | _ => false

/-- The catalog entry contributed by a surviving object `i`. -/
def catalogEntry (acts : List PAction) (ds : DataSource) (i : Nat) :
    List (String × QVal) :=
  match processTarget acts ds i with
  | .ok (some q) => q
  | _ => []

/-- The per-index loop of `_run` for one chunk on one worker: process the
given indices in order, appending each surviving quantities dictionary to
the accumulated catalog; an execution error aborts the run. -/
def runCatalog (acts : List PAction) (ds : DataSource) :
    List Nat → List (List (String × QVal)) →
      Except String (List (List (String × QVal)))
  | [], cat => .ok cat
  | i :: rest, cat =>
      match processTarget acts ds i with
      | .error e => .error e
      | .ok none => runCatalog acts ds rest cat
      | .ok (some q) => runCatalog acts ds rest (cat ++ [q])

/-- Embedding of `_run` on a single worker for one chunk of `n` objects:
with one worker, `parallel_objects` hands back every index 0..n-1 in
ascending order; the catalog starts empty. -/
def runPipeline (acts : List PAction) (ds : DataSource) (n : Nat) :
    Except String (List (List (String × QVal))) :=
  runCatalog acts ds (List.range n) []

/-!
Configuration API.  The pipeline state is the three lists initialised in
`AnalysisPipeline.__init__`.  The registries are external collaborators of
the engine (the registry modules are not part of the embedded source);
they are modelled from the spec interface: `find(name, args) -> callable`,
with the call-time arguments already bound into the returned callable, or
a name-not-found failure at configuration time.
-/

/-- The mutable configuration state of `AnalysisPipeline`: the action
list, the list of quantity keys to be written to the catalog, and the
field-quantity request list. -/
structure Pipeline where
  actions : List PAction
  quantities : List String
  field_quantities : List FieldRef

/-- `AnalysisPipeline.__init__`: all three lists start empty. -/
def pipelineInit : Pipeline :=
  { actions := [], quantities := [], field_quantities := [] }

/-- Modelled from the spec: a registry is a partial map from a name to the
callable with its configuration arguments already bound (the registry
modules themselves are outside the embedded source). -/
def Registry (α : Type) : Type := String → Option α

/-- Embedding of `add_callback`: resolve the name through the callback
registry (raising on an unknown name, before any state change), then
append the bound callback action. -/
def add_callback (creg : Registry (Target → Target)) (name : String)
    (p : Pipeline) : Except String Pipeline :=
  match creg name with
  | none => .error ("Callback not found: " ++ name)
  | some f => .ok { p with actions := p.actions ++ [.callback f] }

/-- Embedding of `add_filter`: resolve the name through the filter
registry (raising on an unknown name, before any state change), then
append the bound filter action. -/
def add_filter (freg : Registry (Target → Bool)) (name : String)
    (p : Pipeline) : Except String Pipeline :=
  match freg name with
  | none => .error ("Filter not found: " ++ name)
  | some f => .ok { p with actions := p.actions ++ [.filter f] }

/-- Embedding of `add_quantity`.  The branch is chosen by the
`from_data_source` keyword (default false).  When false, the key is
resolved through the quantity registry (raising on an unknown key, before
any state change) and the callable is the payload; `field_type` is popped
and ignored.  When true, no lookup happens: the payload is the bare key if
`field_type` is None and the `(field_type, key)` pair otherwise, and it is
also appended to `field_quantities`.  In both success branches the key is
appended to `quantities` and the action to `actions`. -/
def add_quantity (qreg : Registry (Target → QVal)) (key : String)
    (from_data_source : Bool) (field_type : Option String)
    (p : Pipeline) : Except String Pipeline :=
  if from_data_source = false then
    match qreg key with
    | none => .error ("Quantity not found: " ++ key)
    | some f =>
        .ok { p with quantities := p.quantities ++ [key],
                     actions := p.actions ++ [.quantity key (.fn f)] }
  else
    let quantity : FieldRef :=
      match field_type with
      | none => .plain key
      | some ft => .typed ft key
    .ok { p with field_quantities := p.field_quantities ++ [quantity],
                 quantities := p.quantities ++ [key],
                 actions := p.actions ++ [.quantity key (.fieldRef quantity)] }

/-- One configuration call a recipe body may issue (modelled from the
spec: a recipe is defined purely as a sequence of calls to the
configuration methods; the in-repo recipes use the three non-recipe
calls). -/
inductive BaseCall where
  | callback (name : String)
  | fltr (name : String)
  | quantity (key : String) (from_data_source : Bool) (field_type : Option String)

/-- The registries of the four action kinds.  Modelled from the spec: the
recipe registry resolves a name to a recipe body, itself a sequence of
configuration calls (the registry modules are outside the embedded
source). -/
structure Registries where
  callbacks : Registry (Target → Target)
  filters : Registry (Target → Bool)
  quantities : Registry (Target → QVal)
  recipes : Registry (List BaseCall)

/-- Issue one configuration call directly on the pipeline. -/
def applyBaseCall (regs : Registries) : BaseCall → Pipeline → Except String Pipeline
  | .callback name, p => add_callback regs.callbacks name p
  | .fltr name, p => add_filter regs.filters name p
  | .quantity key fds ft, p => add_quantity regs.quantities key fds ft p

/-- Issue a sequence of configuration calls directly on the pipeline, in
order, stopping at the first failure. -/
def applyBaseCalls (regs : Registries) :
    List BaseCall → Pipeline → Except String Pipeline
  | [], p => .ok p
  | c :: rest, p =>
      match applyBaseCall regs c p with
      | .error e => .error e
      | .ok p2 => applyBaseCalls regs rest p2

/-- Embedding of `add_recipe`: resolve the name through the recipe
registry (raising on an unknown name) and invoke the recipe body
synchronously on the pipeline itself. -/
def add_recipe (regs : Registries) (name : String)
    (p : Pipeline) : Except String Pipeline :=
  match regs.recipes name with
  | none => .error ("Recipe not found: " ++ name)
  | some body => applyBaseCalls regs body p

/-!
Catalog writer (`_save`).  File names are manipulated as character lists.
-/

/-- The first argument of `_save`: either a dictionary-like descriptor
(read with `.get`, giving None when absent) or an object whose `basename`
attribute is read. -/
inductive SourceDesc where
  | dict (basename : Option (List Char))
  | obj (basename : Option (List Char))

/-- The `basename` read at the top of `_save`. -/
def descBasename : SourceDesc → Option (List Char)
  | .dict b => b
  | .obj b => b

/-- Python `'.' in s`. -/
def dotIn (s : List Char) : Bool := decide ('.' ∈ s)

/-- Python `s[:s.rfind('.')]` for a string known to contain a dot: keep
everything strictly before the last dot. -/
def stripAfterLastDot (s : List Char) : List Char :=
  ((s.reverse.dropWhile fun c => c ≠ '.').drop 1).reverse

/-- The base-name computation of `_save`: default to "analysis" when the
descriptor carries no name, then strip from the last dot onward when a dot
is present. -/
def saveBasename (d : SourceDesc) : List Char :=
  let b := (descBasename d).getD ("analysis".data)
  if dotIn b then stripAfterLastDot b else b

/-- Python `os.path.join a b` for the relative names used here. -/
def joinPath (a b : List Char) : List Char := a ++ '/' :: b

/-- The output file path of `_save`:
`output_dir/<basename>/<basename>.<rank>.h5`. -/
def saveFilename (output_dir : List Char) (d : SourceDesc) (rank : Nat) :
    List Char :=
  joinPath (joinPath output_dir (saveBasename d))
    (saveBasename d ++ '.' :: (Nat.repr rank).data ++ ('.' :: "h5".data))

/-- The column-oriented payload `_save` builds when no explicit data is
passed: one column per configured quantity key, holding that key across
every catalog entry — but only when the catalog is non-empty; for an empty
catalog the payload stays the empty dictionary. -/
def buildData (quantities : List String)
    (catalog : List (List (String × QVal))) : List (String × List QVal) :=
  if catalog.length > 0 then
    quantities.map fun key => (key, catalog.map fun h => dictGet key h)
  else []

/-- What one `_save` call hands to `save_as_dataset`: one output file for
this worker, its payload, the per-field storage-location tags, and the two
extra attributes. -/
structure SaveResult where
  filename : List Char
  data : List (String × List QVal)
  ftypes : List (String × String)
  data_type : String
  num_halos : Nat

/-- Embedding of `_save` (single worker of the given rank): derive the
base name and file path, build the payload from the catalog when no
explicit data is given (counting the catalog entries), default the field
type tags to "." for every quantity key, and attach the catalog metadata. -/
def saveRun (output_dir : List Char) (rank : Nat) (quantities : List String)
    (catalog : List (List (String × QVal))) (d : SourceDesc)
    (dataArg : Option (List (String × List QVal)))
    (ftypesArg : Option (List (String × String))) : SaveResult :=
  let data :=
    match dataArg with
    | none => buildData quantities catalog
    | some dd => dd
  let n :=
    match dataArg with
    | none => catalog.length
    | some dd => ((List.lookup "particle_identifier" dd).getD []).length
  let ftypes :=
    match ftypesArg with
    | none => quantities.map fun key => (key, ".")
    | some ft => ft
  { filename := saveFilename output_dir d rank,
    data := data, ftypes := ftypes,
    data_type := "halo_catalog", num_halos := n }

/-!
Concrete sample data used to instantiate the theorems below.
-/

/-- A sample data source: field value at index `i` is the plain number `i`. -/
def dsDemo : DataSource := fun _ i => qRaw (Int.ofNat i)

/-- A callback that writes a quantity directly into the target record. -/
def cbWrite : Target → Target :=
  fun t => { t with quantities := [("x", qRaw 5)] }

/-- A filter rejecting every target. -/
def fFalse : Target → Bool := fun _ => false

/-- A sample registered quantity function. -/
def vqDemo : Target → QVal := fun _ => qRaw 42

/-- A quantity registry holding only the name "virial_radius". -/
def qregDemo : Registry (Target → QVal) :=
  fun k => if k = "virial_radius" then some vqDemo else none

/-- An empty quantity registry. -/
def qregEmpty : Registry (Target → QVal) := fun _ => none

/-- An empty callback registry. -/
def cregEmpty : Registry (Target → Target) := fun _ => none

/-- An empty filter registry. -/
def fregEmpty : Registry (Target → Bool) := fun _ => none

/-- A sample registered filter function. -/
def fX : Target → Bool := fun _ => true

/-- A sample registered quantity function. -/
def qY : Target → QVal := fun _ => qRaw 7

/-- The body of the sample recipe "R": a filter call followed by a
quantity call. -/
def recipeR : List BaseCall :=
  [BaseCall.fltr "X", BaseCall.quantity "Y" false none]

/-- Sample registries: filter "X", quantity "Y", recipe "R". -/
def regsDemo : Registries :=
  { callbacks := fun _ => none,
    filters := fun k => if k = "X" then some fX else none,
    quantities := fun k => if k = "Y" then some qY else none,
    recipes := fun k => if k = "R" then some recipeR else none }

/-- A sample quantity function producing a unit-carrying value. -/
def quM : Target → QVal := fun _ => qUnit 3 2

/-- A one-action list storing a unit-carrying quantity under "m". -/
def actsM : List PAction := [PAction.quantity "m" (QSource.fn quM)]

/-- The target state after running `actsM` on a fresh target of index 0. -/
def targM : Target := { index := 0, obj := 0, quantities := [("m", qUnit 3 2)] }

/-- A sample two-entry local catalog with one quantity key "m". -/
def catalogDemo : List (List (String × QVal)) :=
  [[("m", qRaw 1)], [("m", qRaw 2)]]

/-!
Shared lemmas about the execution engine.
-/

/-- Appending actions after a surviving prefix continues from the state
the prefix produced. -/
lemma runActions_append (ds : DataSource) (i : Nat) :
    ∀ (l1 l2 : List PAction) (t t1 : Target),
      runActions ds i l1 t = Except.ok (t1, true) →
      runActions ds i (l1 ++ l2) t = runActions ds i l2 t1 := by
  intro l1
  induction l1 with
  | nil =>
      intro l2 t t1 h
      simp only [runActions] at h
      cases h
      simp
  | cons a rest ih =>
      intro l2 t t1 h
      cases a with
      | callback f =>
          simp only [runActions] at h ⊢
          exact ih l2 (f t) t1 h
      | filter f =>
          by_cases hf : f t
          · simp only [runActions, hf, if_true] at h ⊢
            exact ih l2 t t1 h
          · simp only [runActions, hf, if_false] at h
            cases h
      | quantity key src =>
          simp only [runActions] at h ⊢
          exact ih l2 _ t1 h
      | unknown tag =>
          simp only [runActions] at h
          exact Except.noConfusion h

/-- An action list whose entries all carry recognised kind tags never
raises. -/
lemma runActions_known (ds : DataSource) (i : Nat) :
    ∀ (acts : List PAction) (t : Target), acts.all isKnown = true →
      ∃ r, runActions ds i acts t = Except.ok r := by
  intro acts
  induction acts with
  | nil => intro t _; exact ⟨(t, true), rfl⟩
  | cons a rest ih =>
      intro t h
      rw [List.all_cons, Bool.and_eq_true] at h
      cases a with
      | callback f =>
          obtain ⟨r, hr⟩ := ih (f t) h.2
          exact ⟨r, by simpa [runActions] using hr⟩
      | filter f =>
          by_cases hf : f t
          · obtain ⟨r, hr⟩ := ih t h.2
            exact ⟨r, by simpa [runActions, hf] using hr⟩
          · exact ⟨(t, false), by simp [runActions, hf]⟩
      | quantity key src =>
          obtain ⟨r, hr⟩ := ih _ h.2
          exact ⟨r, by simpa [runActions] using hr⟩
      | unknown tag => simp [isKnown] at h

/-- An action list with no filter and only recognised kinds always ends
with the survived flag set. -/
lemma runActions_no_filter (ds : DataSource) (i : Nat) :
    ∀ (acts : List PAction) (t : Target), acts.all isKnown = true →
      acts.all isNotFilter = true →
      ∃ t2, runActions ds i acts t = Except.ok (t2, true) := by
  intro acts
  induction acts with
  | nil => intro t _ _; exact ⟨t, rfl⟩
  | cons a rest ih =>
      intro t hk hf
      rw [List.all_cons, Bool.and_eq_true] at hk hf
      cases a with
      | callback f =>
          obtain ⟨t2, hr⟩ := ih (f t) hk.2 hf.2
          exact ⟨t2, by simpa [runActions] using hr⟩
      | filter f => simp [isNotFilter] at hf
      | quantity key src =>
          obtain ⟨t2, hr⟩ := ih _ hk.2 hf.2
          exact ⟨t2, by simpa [runActions] using hr⟩
      | unknown tag => simp [isKnown] at hk

/-- Processing a single object with an all-recognised action list never
raises. -/
lemma processTarget_known (acts : List PAction) (ds : DataSource) (i : Nat)
    (h : acts.all isKnown = true) :
    ∃ r, processTarget acts ds i = Except.ok r := by
  obtain ⟨⟨t, b⟩, hr⟩ := runActions_known ds i acts (initTarget i i) h
  cases b
  · exact ⟨none, by simp [processTarget, hr]⟩
  · exact ⟨some (normalizeQuantities t.quantities), by simp [processTarget, hr]⟩

/-- Master accumulation lemma for the catalog loop: a block of indices
that all process without raising contributes exactly the entries of its
surviving indices, in order, before the loop continues. -/
lemma runCatalog_append_block (acts : List PAction) (ds : DataSource) :
    ∀ (l1 l2 : List Nat) (cat : List (List (String × QVal))),
      (∀ j ∈ l1, ∃ r, processTarget acts ds j = Except.ok r) →
      runCatalog acts ds (l1 ++ l2) cat =
        runCatalog acts ds l2
          (cat ++ (l1.filter fun i => survives acts ds i).map
            fun i => catalogEntry acts ds i) := by
  intro l1
  induction l1 with
  | nil => intro l2 cat _; simp
  | cons i rest ih =>
      intro l2 cat h
      obtain ⟨r, hr⟩ := h i (by simp)
      have hrest : ∀ j ∈ rest, ∃ r, processTarget acts ds j = Except.ok r :=
        fun j hj => h j (by simp [hj])
      cases r with
      | none =>
          have hs : survives acts ds i = false := by simp [survives, hr]
          have := ih l2 cat hrest
          simp only [List.cons_append, runCatalog, hr, List.append_eq]
          rw [this]
          simp [hs]
      | some q =>
          have hs : survives acts ds i = true := by simp [survives, hr]
          have he : catalogEntry acts ds i = q := by simp [catalogEntry, hr]
          have := ih l2 (cat ++ [q]) hrest
          simp only [List.cons_append, runCatalog, hr, List.append_eq]
          rw [this]
          simp [hs, he]

/-- The catalog loop over a block of indices that all process without
raising returns the accumulated catalog. -/
lemma runCatalog_eq (acts : List PAction) (ds : DataSource)
    (l : List Nat) (cat : List (List (String × QVal)))
    (h : ∀ j ∈ l, ∃ r, processTarget acts ds j = Except.ok r) :
    runCatalog acts ds l cat =
      Except.ok (cat ++ (l.filter fun i => survives acts ds i).map
        fun i => catalogEntry acts ds i) := by
  have := runCatalog_append_block acts ds l [] cat h
  rw [List.append_nil] at this
  rw [this]
  rfl

/-- Looking a key up after a value-wise map of an association list is the
mapped lookup. -/
lemma lookup_map_val (g : QVal → QVal) (k : String) :
    ∀ qs : List (String × QVal),
      List.lookup k (qs.map fun p => (p.1, g p.2)) =
        (List.lookup k qs).map g := by
  intro qs
  induction qs with
  | nil => rfl
  | cons p rest ih =>
      by_cases hk : k = p.1
      · simp [List.lookup, hk]
      · have hb : (k == p.1) = false := by
          simp [hk]
        simp [List.lookup, hb, ih]

/-- Looking a key that occurs in the key list up in the column dictionary
built over those keys gives that column. -/
lemma lookup_map_keys (f : String → List QVal) (k : String) :
    ∀ keys : List String, k ∈ keys →
      List.lookup k (keys.map fun key => (key, f key)) = some (f k) := by
  intro keys
  induction keys with
  | nil => intro h; cases h
  | cons k2 rest ih =>
      intro h
      by_cases hk : k = k2
      · subst hk; simp [List.lookup]
      · have hmem : k ∈ rest := by
          cases h with
          | head => exact absurd rfl hk
          | tail _ hmem => exact hmem
        have hb : (k == k2) = false := by simp [hk]
        simp [List.lookup, hb, ih hmem]

/-- Dropping the dot-free reversed extension reaches the last dot. -/
lemma dropWhile_no_dot :
    ∀ (l r : List Char), (∀ c ∈ l, c ≠ '.') →
      (l ++ '.' :: r).dropWhile (fun c => c ≠ '.') = '.' :: r := by
  intro l
  induction l with
  | nil => intro r _; simp [List.dropWhile]
  | cons c l ih =>
      intro r h
      have hc : decide (c ≠ '.') = true := by
        simp [h c (List.mem_cons_self c l)]
      rw [List.cons_append, List.dropWhile_cons, if_pos hc]
      exact ih r fun x hx => h x (List.mem_cons_of_mem c hx)

/-- Stripping from the last dot keeps exactly the part before it. -/
lemma stripAfterLastDot_eq (s t : List Char) (h : ∀ c ∈ t, c ≠ '.') :
    stripAfterLastDot (s ++ '.' :: t) = s := by
  unfold stripAfterLastDot
  rw [List.reverse_append]
  have hrev : ∀ c ∈ t.reverse, c ≠ '.' := fun c hc => h c (List.mem_reverse.mp hc)
  rw [show ('.' :: t).reverse ++ s.reverse = t.reverse ++ '.' :: s.reverse by simp]
  rw [dropWhile_no_dot t.reverse s.reverse hrev]
  simp

/-!
Claim theorems.
-/

/-- Claim C1: on a single worker, after a run over one chunk of n objects
the local catalog is exactly the list of normalised quantity mappings of
the indices whose processing passed every filter, taken in ascending index
order; an index at which some filter returned false contributes no entry.
The hypothesis states that every configured action carries one of the
three recognised kind tags (which is what the configuration API
produces).  The final conjunct identifies survival with the action-list
pass ending with the survived flag still true, i.e. with no filter having
returned false. -/
theorem c1_catalog_exact (acts : List PAction) (ds : DataSource) (n : Nat)
    (h : acts.all isKnown = true) :
    runPipeline acts ds n =
      Except.ok (((List.range n).filter fun i => survives acts ds i).map
        fun i => catalogEntry acts ds i) ∧
    List.Pairwise (· < ·)
      ((List.range n).filter fun i => survives acts ds i) ∧
    ∀ i, survives acts ds i = true ↔
      ∃ t, runActions ds i acts (initTarget i i) = Except.ok (t, true) := by
  refine ⟨?_, ?_, ?_⟩
  · have := runCatalog_eq acts ds (List.range n) []
      (fun j _ => processTarget_known acts ds j h)
    simpa [runPipeline] using this
  · exact (List.pairwise_lt_range n).filter _
  · intro i
    constructor
    · intro hs
      obtain ⟨⟨t, b⟩, hr⟩ := runActions_known ds i acts (initTarget i i) h
      cases b with
      | false => simp [survives, processTarget, hr] at hs
      | true => exact ⟨t, hr⟩
    · intro ⟨t, hr⟩
      simp [survives, processTarget, hr]

/-- Witness for C1 at a concrete pipeline: one filter keeping even
indices, one field quantity, three objects. -/
theorem c1_catalog_exact_witness :
    ([PAction.filter (fun t => decide (t.index % 2 = 0)),
      PAction.quantity "vr" (QSource.fieldRef (FieldRef.plain "vr"))].all
        isKnown = true) ∧
    runPipeline
      [PAction.filter (fun t => decide (t.index % 2 = 0)),
       PAction.quantity "vr" (QSource.fieldRef (FieldRef.plain "vr"))]
      dsDemo 3 =
      Except.ok (((List.range 3).filter fun i =>
        survives
          [PAction.filter (fun t => decide (t.index % 2 = 0)),
           PAction.quantity "vr" (QSource.fieldRef (FieldRef.plain "vr"))]
          dsDemo i).map
        fun i =>
          catalogEntry
            [PAction.filter (fun t => decide (t.index % 2 = 0)),
             PAction.quantity "vr" (QSource.fieldRef (FieldRef.plain "vr"))]
            dsDemo i) :=
  ⟨rfl,
   (c1_catalog_exact
     [PAction.filter (fun t => decide (t.index % 2 = 0)),
      PAction.quantity "vr" (QSource.fieldRef (FieldRef.plain "vr"))]
     dsDemo 3 rfl).1⟩

/-- Claim C2: once a filter returns false on the current target state,
processing of that target stops there: the result of the whole pass is
already determined (the state reached before the filter, with the
survived flag false) whatever actions follow the filter — in particular
actions that would raise or store quantities are never invoked. -/
theorem c2_filter_short_circuit (ds : DataSource) (i : Nat)
    (pre post : List PAction) (f : Target → Bool) (t0 t1 : Target)
    (hpre : runActions ds i pre t0 = Except.ok (t1, true))
    (hf : f t1 = false) :
    runActions ds i (pre ++ PAction.filter f :: post) t0 =
      Except.ok (t1, false) := by
  rw [runActions_append ds i pre (PAction.filter f :: post) t0 t1 hpre]
  simp [runActions, hf]

/-- Witness for C2: a failing filter followed by an action that would
raise; the pass still returns cleanly with the survived flag false. -/
theorem c2_filter_short_circuit_witness :
    runActions dsDemo 0
      ([] ++ PAction.filter fFalse :: [PAction.unknown "boom"])
      (initTarget 0 0) =
      Except.ok (initTarget 0 0, false) :=
  c2_filter_short_circuit dsDemo 0 [] [PAction.unknown "boom"] fFalse
    (initTarget 0 0) (initTarget 0 0) rfl rfl

/-- Claim C7: an action entry whose kind tag is not callback, filter or
quantity raises the fatal RuntimeError the moment it is reached (first
conjunct: any surviving prefix followed by such an entry ends the pass
with the error, whatever follows — it is not skipped), and the error
aborts the whole run (second conjunct: the per-chunk loop returns the
error instead of a catalog). -/
theorem c7_unknown_kind_aborts :
    (∀ (ds : DataSource) (i : Nat) (pre post : List PAction) (tag : String)
        (t0 t1 : Target),
        runActions ds i pre t0 = Except.ok (t1, true) →
        runActions ds i (pre ++ PAction.unknown tag :: post) t0 =
          Except.error actionErrMsg) ∧
    (∀ (acts : List PAction) (ds : DataSource) (n i : Nat), i < n →
        processTarget acts ds i = Except.error actionErrMsg →
        (∀ j, j < i → ∃ r, processTarget acts ds j = Except.ok r) →
        runPipeline acts ds n = Except.error actionErrMsg) := by
  constructor
  · intro ds i pre post tag t0 t1 hpre
    rw [runActions_append ds i pre (PAction.unknown tag :: post) t0 t1 hpre]
    rfl
  · intro acts ds n i hin hr hok
    have hn : List.range n = List.range i ++ i :: (List.range n).drop (i + 1) := by
      conv_lhs => rw [← List.take_append_drop i (List.range n)]
      rw [List.take_range]
      congr 1
      · rw [Nat.min_eq_left (Nat.le_of_lt hin)]
      · rw [List.drop_eq_getElem_cons (by simpa using hin)]
        simp
    unfold runPipeline
    rw [hn, runCatalog_append_block acts ds (List.range i) _ []
      (fun j hj => hok j (List.mem_range.mp hj))]
    simp [runCatalog, hr]

/-- Witness for C7: a single unrecognised action; the pass errors and the
run over one object errors. -/
theorem c7_unknown_kind_aborts_witness :
    runActions dsDemo 0 ([] ++ PAction.unknown "bogus" :: [])
      (initTarget 0 0) = Except.error actionErrMsg ∧
    runPipeline [PAction.unknown "bogus"] dsDemo 1 =
      Except.error actionErrMsg :=
  ⟨c7_unknown_kind_aborts.1 dsDemo 0 [] [] "bogus" (initTarget 0 0)
      (initTarget 0 0) rfl,
   c7_unknown_kind_aborts.2 [PAction.unknown "bogus"] dsDemo 1 0
     (by decide) rfl (fun j hj => absurd hj (Nat.not_lt_zero j))⟩

/-- Claim C6: for a target that survives all filters, the catalog entry is
the quantities dictionary as left by the last action, normalised in place:
every value carrying unit metadata is replaced by its base-unit conversion
applied exactly once (its conversion count goes up by exactly one), and
every value without unit metadata is stored unchanged. -/
theorem c6_normalize_once (acts : List PAction) (ds : DataSource) (i : Nat)
    (t : Target)
    (h : runActions ds i acts (initTarget i i) = Except.ok (t, true)) :
    processTarget acts ds i =
      Except.ok (some (normalizeQuantities t.quantities)) ∧
    ∀ k v, List.lookup k t.quantities = some v →
      (v.hasUnits = true →
        List.lookup k (normalizeQuantities t.quantities) =
          some (convertToBase v) ∧
        (convertToBase v).conversions = v.conversions + 1) ∧
      (v.hasUnits = false →
        List.lookup k (normalizeQuantities t.quantities) = some v) := by
  constructor
  · simp [processTarget, h]
  · intro k v hv
    have hl := lookup_map_val
      (fun v => if v.hasUnits then convertToBase v else v) k t.quantities
    constructor
    · intro hu
      constructor
      · rw [normalizeQuantities, hl, hv]
        simp [hu]
      · simp [convertToBase]
    · intro hu
      rw [normalizeQuantities, hl, hv]
      simp [hu]

/-- Witness for C6: one quantity action storing a unit-carrying value;
the catalog entry holds its base-unit conversion with the conversion
count raised from 0 to 1. -/
theorem c6_normalize_once_witness :
    processTarget actsM dsDemo 0 =
      Except.ok (some (normalizeQuantities targM.quantities)) ∧
    List.lookup "m" (normalizeQuantities targM.quantities) =
      some (convertToBase (qUnit 3 2)) ∧
    (convertToBase (qUnit 3 2)).conversions = (qUnit 3 2).conversions + 1 := by
  have h := c6_normalize_once actsM dsDemo 0 targM rfl
  have h2 := (h.2 "m" (qUnit 3 2) rfl).1 rfl
  exact ⟨h.1, h2.1, h2.2⟩

/-- Claim C10 counterexample: survival indeed defaults to true, but the
appended quantity mapping need not be empty when no Quantity action is
configured — a callback may write quantities directly into the target
record.  Here a single callback (no Filter and no Quantity action) yields
a catalog whose one entry is non-empty. -/
theorem c10_counterexample :
    ([PAction.callback cbWrite].all isNotQuantity = true) ∧
    ([PAction.callback cbWrite].all isNotFilter = true) ∧
    runPipeline [PAction.callback cbWrite] dsDemo 1 =
      Except.ok [[("x", qRaw 5)]] ∧
    ([("x", qRaw 5)] : List (String × QVal)) ≠ [] := by
  refine ⟨rfl, rfl, rfl, by decide⟩

/-- Claim C10 as amended: with no Filter action in the list (and all kind
tags recognised) every processed target survives and its quantity mapping
is appended, so the catalog holds one entry per index in ascending order;
when the action list is empty every appended mapping is empty.  (The
original claim also asserted emptiness whenever no Quantity action is
configured, but a callback can write quantities into the target record.) -/
theorem c10_default_survival (acts : List PAction) (ds : DataSource)
    (n : Nat) (hk : acts.all isKnown = true)
    (hf : acts.all isNotFilter = true) :
    runPipeline acts ds n =
      Except.ok ((List.range n).map fun i => catalogEntry acts ds i) ∧
    (∀ i, survives acts ds i = true) ∧
    (acts = [] →
      runPipeline acts ds n = Except.ok (List.replicate n [])) := by
  have hs : ∀ i, survives acts ds i = true := by
    intro i
    obtain ⟨t2, hr⟩ := runActions_no_filter ds i acts (initTarget i i) hk hf
    simp [survives, processTarget, hr]
  have hmain : runPipeline acts ds n =
      Except.ok ((List.range n).map fun i => catalogEntry acts ds i) := by
    have := runCatalog_eq acts ds (List.range n) []
      (fun j _ => processTarget_known acts ds j hk)
    rw [List.filter_eq_self.mpr fun i _ => hs i] at this
    simpa [runPipeline] using this
  refine ⟨hmain, hs, ?_⟩
  intro hacts
  subst hacts
  rw [hmain]
  have hconst :
      ((List.range n).map fun i => catalogEntry ([] : List PAction) ds i) =
        (List.range n).map fun _ => ([] : List (String × QVal)) := rfl
  rw [hconst, List.map_const', List.length_range]

/-- Witness for C10 as amended: a callback-only pipeline over two objects
appends both targets. -/
theorem c10_default_survival_witness :
    ([PAction.callback cbWrite].all isKnown = true) ∧
    ([PAction.callback cbWrite].all isNotFilter = true) ∧
    runPipeline [PAction.callback cbWrite] dsDemo 2 =
      Except.ok ((List.range 2).map fun i =>
        catalogEntry [PAction.callback cbWrite] dsDemo i) :=
  ⟨rfl, rfl,
   (c10_default_survival [PAction.callback cbWrite] dsDemo 2 rfl rfl).1⟩

/-- Claim C3, behaviour of the code at the failing input (the docstring
example `add_quantity("virial_radius", field_type="halos")`): the branch
is selected by `from_data_source`, not by `field_type`.  With
`from_data_source` left at its default, the registry lookup still happens
even though a field namespace was given (first conjunct: it fails on an
empty registry; second conjunct: with the key registered, the appended
payload is the registry callable and `field_quantities` stays empty).
The behaviour the claim and the docstring describe only occurs when
`from_data_source` is passed as true (third conjunct: then no lookup
happens and the `(field_type, key)` pair is appended and recorded). -/
theorem c3_field_type_ignored :
    add_quantity qregEmpty "virial_radius" false (some "halos")
        pipelineInit =
      Except.error ("Quantity not found: " ++ "virial_radius") ∧
    add_quantity qregDemo "virial_radius" false (some "halos")
        pipelineInit =
      Except.ok
        { actions := [PAction.quantity "virial_radius" (QSource.fn vqDemo)],
          quantities := ["virial_radius"], field_quantities := [] } ∧
    add_quantity qregEmpty "virial_radius" true (some "halos")
        pipelineInit =
      Except.ok
        { actions :=
            [PAction.quantity "virial_radius"
              (QSource.fieldRef (FieldRef.typed "halos" "virial_radius"))],
          quantities := ["virial_radius"],
          field_quantities := [FieldRef.typed "halos" "virial_radius"] } :=
  ⟨rfl, rfl, rfl⟩

/-- Claim C4: a registry lookup failure in `add_callback`, `add_filter`
or `add_quantity` surfaces as an error from the call itself (never
deferred to run time), and since every state change in those methods
comes after the lookup, the pipeline the caller holds is exactly what it
was before the call — the error result carries no modified state. -/
theorem c4_lookup_failure_no_partial_state
    (creg : Registry (Target → Target)) (freg : Registry (Target → Bool))
    (qreg : Registry (Target → QVal)) (cname fname qkey : String)
    (ft : Option String) (p : Pipeline) :
    (creg cname = none →
      add_callback creg cname p =
        Except.error ("Callback not found: " ++ cname)) ∧
    (freg fname = none →
      add_filter freg fname p =
        Except.error ("Filter not found: " ++ fname)) ∧
    (qreg qkey = none →
      add_quantity qreg qkey false ft p =
        Except.error ("Quantity not found: " ++ qkey)) := by
  refine ⟨?_, ?_, ?_⟩
  · intro h; simp [add_callback, h]
  · intro h; simp [add_filter, h]
  · intro h; simp [add_quantity, h]

/-- Witness for C4 on empty registries. -/
theorem c4_lookup_failure_no_partial_state_witness :
    cregEmpty "a" = none ∧
    add_callback cregEmpty "a" pipelineInit =
      Except.error ("Callback not found: " ++ "a") ∧
    add_filter fregEmpty "b" pipelineInit =
      Except.error ("Filter not found: " ++ "b") ∧
    add_quantity qregEmpty "c" false none pipelineInit =
      Except.error ("Quantity not found: " ++ "c") := by
  have h := c4_lookup_failure_no_partial_state cregEmpty fregEmpty qregEmpty
    "a" "b" "c" none pipelineInit
  exact ⟨rfl, h.1 rfl, h.2.1 rfl, h.2.2 rfl⟩

/-- Claim C5: expanding a recipe is the same pipeline transformation as
issuing the calls of its body directly, in the same order — the resulting
action list agrees in kind, order and the very callables resolved
(`add_recipe` resolves the body and invokes it synchronously on the
pipeline itself). -/
theorem c5_recipe_equivalence (regs : Registries) (name : String)
    (body : List BaseCall) (p : Pipeline)
    (h : regs.recipes name = some body) :
    add_recipe regs name p = applyBaseCalls regs body p := by
  simp [add_recipe, h]

/-- Witness for C5: the recipe "R" (filter "X" then quantity "Y") expands
to exactly the pipeline produced by the two direct calls, down to the
resolved callables. -/
theorem c5_recipe_equivalence_witness :
    regsDemo.recipes "R" = some recipeR ∧
    add_recipe regsDemo "R" pipelineInit =
      applyBaseCalls regsDemo recipeR pipelineInit ∧
    applyBaseCalls regsDemo recipeR pipelineInit =
      Except.ok
        { actions := [PAction.filter fX, PAction.quantity "Y" (QSource.fn qY)],
          quantities := ["Y"], field_quantities := [] } :=
  ⟨rfl, c5_recipe_equivalence regsDemo "R" recipeR pipelineInit rfl, rfl⟩

/-- Claim C8: the catalog writer reads the base name off the source
descriptor (dictionary-like or attribute-carrying object alike),
substitutes the fixed placeholder "analysis" when none is present, strips
a trailing extension (everything from the last dot onward) when a dot is
present and keeps the name unchanged otherwise, and the one file this
worker writes sits at `output_dir/<basename>/<basename>.<rank>.h5`. -/
theorem c8_save_naming (d : SourceDesc) :
    (descBasename d = none → saveBasename d = "analysis".data) ∧
    (∀ s t, descBasename d = some (s ++ '.' :: t) → (∀ c ∈ t, c ≠ '.') →
      saveBasename d = s) ∧
    (∀ b, descBasename d = some b → dotIn b = false → saveBasename d = b) ∧
    (∀ (out : List Char) (rank : Nat) (qs : List String)
        (cat : List (List (String × QVal)))
        (dataArg : Option (List (String × List QVal)))
        (ftArg : Option (List (String × String))),
      (saveRun out rank qs cat d dataArg ftArg).filename =
        joinPath (joinPath out (saveBasename d))
          (saveBasename d ++ '.' :: (Nat.repr rank).data ++
            ('.' :: "h5".data))) := by
  refine ⟨?_, ?_, ?_, ?_⟩
  · intro h
    simp [saveBasename, h]
    intro hd
    exact absurd hd (by decide)
  · intro s t hb ht
    have hdot : dotIn (s ++ '.' :: t) = true := by
      simp [dotIn]
    rw [saveBasename, hb]
    simp only [Option.getD_some, hdot, if_true]
    exact stripAfterLastDot_eq s t ht
  · intro b hb hdot
    rw [saveBasename, hb]
    simp [hdot]
  · intro out rank qs cat dataArg ftArg
    rfl

/-- Witness for C8: the descriptor name "halos_64.0.bin" loses only its
last extension. -/
theorem c8_save_naming_witness :
    saveBasename (SourceDesc.dict (some ("halos_64.0.bin".data))) =
      "halos_64.0".data :=
  (c8_save_naming (SourceDesc.dict (some ("halos_64.0.bin".data)))).2.1
    ("halos_64.0".data) ("bin".data) rfl (by decide)

/-- Claim C9 counterexample: with one configured quantity key and an
empty local catalog, the payload built by the writer is the empty
dictionary — it does not contain the (empty) column for the configured
key, contrary to the claim read over every catalog. -/
theorem c9_counterexample :
    (saveRun [] 0 ["m"] [] (SourceDesc.dict none) none none).num_halos = 0 ∧
    (saveRun [] 0 ["m"] [] (SourceDesc.dict none) none none).data = [] ∧
    List.lookup "m"
        ((saveRun [] 0 ["m"] [] (SourceDesc.dict none) none none).data) ≠
      some ((([] : List (List (String × QVal))).map fun h => dictGet "m" h)) :=
  ⟨rfl, rfl, by decide⟩

/-- Claim C9 as amended: when the writer is invoked without an explicit
payload, the metadata records the number of surviving objects as the
element count together with the fixed "halo_catalog" type tag, and —
provided at least one object survived — the payload maps every configured
quantity key to the ordered column of that key across the catalog; for an
empty catalog the payload is empty. -/
theorem c9_payload_columns (out : List Char) (rank : Nat)
    (quantities : List String) (catalog : List (List (String × QVal)))
    (d : SourceDesc) :
    (saveRun out rank quantities catalog d none none).num_halos =
      catalog.length ∧
    (saveRun out rank quantities catalog d none none).data_type =
      "halo_catalog" ∧
    (catalog ≠ [] → ∀ key ∈ quantities,
      List.lookup key ((saveRun out rank quantities catalog d none none).data) =
        some (catalog.map fun h => dictGet key h)) ∧
    (catalog = [] →
      (saveRun out rank quantities catalog d none none).data = []) := by
  refine ⟨rfl, rfl, ?_, ?_⟩
  · intro hne key hk
    have hpos : 0 < catalog.length := List.length_pos.mpr hne
    show List.lookup key (buildData quantities catalog) = _
    rw [buildData, if_pos hpos]
    exact lookup_map_keys (fun key => catalog.map fun h => dictGet key h)
      key quantities hk
  · intro he
    subst he
    rfl

/-- Witness for C9 as amended, on a two-entry catalog with key "m". -/
theorem c9_payload_columns_witness :
    (saveRun [] 0 ["m"] catalogDemo (SourceDesc.dict none) none none).num_halos =
      catalogDemo.length ∧
    List.lookup "m"
        ((saveRun [] 0 ["m"] catalogDemo (SourceDesc.dict none) none none).data) =
      some (catalogDemo.map fun h => dictGet "m" h) := by
  have h := c9_payload_columns [] 0 ["m"] catalogDemo (SourceDesc.dict none)
  exact ⟨h.1, h.2.2.1 (by decide) "m" (by decide)⟩

end AnalysisPipeline
